import Mathlib

/-! Shallow embedding of the data-refresh/caching core of bot.py:
the TTL cache (ESPNCache), the league registry (LeagueManager), the
background refresh pass (BackgroundRefreshManager._refresh_common_data),
the foreground cached lookup (get_league) and the scoreboard
auto-refresh loop (ScoreboardView.auto_refresh_loop). -/

-- Association lists model Python dicts: insertion order preserved,
-- unique keys in reachable states; update keeps the key's position,
-- new keys append at the end.

def alget {α : Type} : List (String × α) → String → Option α
  | [], _ => none
  | (k', v) :: rest, k => if k' = k then some v else alget rest k

def alset {α : Type} : List (String × α) → String → α → List (String × α)
  | [], k, v => [(k, v)]
  | (k', v') :: rest, k, v =>
      if k' = k then (k, v) :: rest else (k', v') :: alset rest k v

def aldel {α : Type} : List (String × α) → String → List (String × α)
  | [], _ => []
  | (k', v') :: rest, k => if k' = k then rest else (k', v') :: aldel rest k

def almem {α : Type} (l : List (String × α)) (k : String) : Bool :=
  (alget l k).isSome

/-! ## TTL cache (class ESPNCache, bot.py lines 16-57) -/

structure CacheEntry (α : Type) where
  data : α
  timestamp : Int
deriving Repr, DecidableEq

structure ESPNCache (α : Type) where
  cache : List (String × CacheEntry α)
  ttl : Int
deriving Repr, DecidableEq

-- `_is_expired`: time.time() - timestamp > self.ttl
def isExpiredB (ttl now ts : Int) : Bool := decide (now - ts > ttl)

-- `get`: returns the entry's data if present and not expired; an expired
-- entry is deleted by the read.  The mutated store is returned explicitly.
def ESPNCache.get {α : Type} (c : ESPNCache α) (key : String) (now : Int) :
    Option α × ESPNCache α :=
  match alget c.cache key with
  | some entry =>
      if isExpiredB c.ttl now entry.timestamp then
        (none, { c with cache := aldel c.cache key })
      else (some entry.data, c)
  | none => (none, c)

-- `set`: stores data with the current timestamp, overwriting any prior entry.
def ESPNCache.set {α : Type} (c : ESPNCache α) (key : String) (data : α)
    (now : Int) : ESPNCache α :=
  { c with cache := alset c.cache key { data := data, timestamp := now } }

structure CacheStats where
  total : Nat
  expired : Nat
  active : Nat
deriving Repr, DecidableEq

-- `get_stats`: total entries, entries whose timestamp is expired at `now`,
-- and active = total - expired.
def ESPNCache.get_stats {α : Type} (c : ESPNCache α) (now : Int) : CacheStats :=
  let total := c.cache.length
  let expired := c.cache.countP (fun p => isExpiredB c.ttl now p.2.timestamp)
  { total := total, expired := expired, active := total - expired }

/-! ## Remote provider model

A connection attempt in the source is `League(league_id=..., year=...,
swid=..., espn_s2=...)` followed by a `.teams` read; the resulting League
object carries its league_id and year and exposes a team list and a league
name.  We model one attempt as a call to an abstract
`connect : ConnReq → Except String ConnHandle`; an exception raised by the
constructor or the `.teams` read is the `Except.error` case, with the
Python exception text as payload.  `apiName = some s` models a present,
non-empty `league.name` attribute. -/

structure ConnReq where
  league_id : Nat
  year : Nat
  creds : Option (String × String)
deriving Repr, DecidableEq

structure ConnHandle where
  teams : List Nat
  apiName : Option String
  league_id : Nat
  year : Nat
deriving Repr, DecidableEq

def Connect : Type := ConnReq → Except String ConnHandle

-- Python truthiness of an optional string: None and "" are falsy.
def pyFalsyStr : Option String → Bool
  | none => true
  | some s => s = ""

-- `if swid and espn_s2:` picks the credentialed constructor exactly when
-- both strings are truthy.
def credsOf (swid espn_s2 : Option String) : Option (String × String) :=
  match swid, espn_s2 with
  | some a, some b => if a ≠ "" ∧ b ≠ "" then some (a, b) else none
  | _, _ => none

/-! ## League registry (class LeagueManager, bot.py lines 411-623)

State is `self.data = {"users": ..., "leagues": ...}` plus the JSON file
written by `save_data`; we carry the persisted copy explicitly.  Methods
that can mutate take and return a `ManagerState`. -/

structure LeagueInfo where
  name : String
  league_id : Nat
  owner_id : String
  swid : Option String
  espn_s2 : Option String
  year : Nat
deriving Repr, DecidableEq

structure UserEntry where
  leagues : List String
  default_league : Option String
deriving Repr, DecidableEq

structure RegistryData where
  users : List (String × UserEntry)
  leagues : List (String × LeagueInfo)
deriving Repr, DecidableEq

structure ManagerState where
  data : RegistryData
  persisted : RegistryData
deriving Repr, DecidableEq

-- f"{league_id}_{user_id}"
def mkLeagueKey (league_id : Nat) (user_id : String) : String :=
  toString league_id ++ "_" ++ user_id

def reqOf (info : LeagueInfo) : ConnReq :=
  { league_id := info.league_id, year := info.year,
    creds := credsOf info.swid info.espn_s2 }

-- `register_league` (bot.py 430-484).  Validation happens before any
-- mutation: a constructor/teams failure or an empty team list raises
-- ValueError("Unable to connect to league: " + message) and leaves both
-- the in-memory data and the persisted file untouched.  On success the
-- stored name is the API's league name when present, else the given one,
-- and `save_data` persists synchronously before returning.
def register_league (connect : Connect) (seasonYear : Nat)
    (st : ManagerState) (user_id league_name : String) (league_id : Nat)
    (swid espn_s2 : Option String) : Except String String × ManagerState :=
  match connect { league_id := league_id, year := seasonYear,
                  creds := credsOf swid espn_s2 } with
  | .error e => (.error ("Unable to connect to league: " ++ e), st)
  | .ok h =>
    if h.teams.isEmpty then
      (.error ("Unable to connect to league: League has no teams"), st)
    else
      let nameStored := h.apiName.getD league_name
      let league_key := mkLeagueKey league_id user_id
      let info : LeagueInfo :=
        { name := nameStored, league_id := league_id, owner_id := user_id,
          swid := swid, espn_s2 := espn_s2, year := seasonYear }
      let leagues' := alset st.data.leagues league_key info
      let entry := (alget st.data.users user_id).getD
        { leagues := [], default_league := none }
      let userLeagues' :=
        if league_key ∈ entry.leagues then entry.leagues
        else entry.leagues ++ [league_key]
      let default' :=
        if pyFalsyStr entry.default_league then some league_key
        else entry.default_league
      let users' := alset st.data.users user_id
        { leagues := userLeagues', default_league := default' }
      let data' : RegistryData := { users := users', leagues := leagues' }
      (.ok league_key, { data := data', persisted := data' })

-- `get_user_leagues` (bot.py 486-496): the user's keys in registration
-- order, keeping only keys still present in the leagues table.
def get_user_leagues (data : RegistryData) (user_id : String) :
    List LeagueInfo :=
  match alget data.users user_id with
  | none => []
  | some entry => entry.leagues.filterMap (fun k => alget data.leagues k)

-- `get_league_connection` (bot.py 498-527): resolves the default when no
-- key is given (`if not league_key:` treats None and "" as absent),
-- returns None when no matching registration exists, and swallows any
-- exception from the League constructor, returning None.  It never
-- mutates `self.data` and never calls `save_data`.
-- `if not league_key:` / default resolution at the top of
-- `get_league_connection`.
def resolveKey (data : RegistryData) (user_id : String)
    (league_key : Option String) : Option String :=
  if pyFalsyStr league_key then
    match alget data.users user_id with
    | none => none
    | some entry =>
        if pyFalsyStr entry.default_league then none
        else entry.default_league
  else league_key

def get_league_connection (connect : Connect) (st : ManagerState)
    (user_id : String) (league_key : Option String) :
    Option ConnHandle × ManagerState :=
  match resolveKey st.data user_id league_key with
  | none => (none, st)
  | some k =>
    match alget st.data.leagues k with
    | none => (none, st)
    | some info =>
      match connect (reqOf info) with
      | .ok h => (some h, st)
      | .error _ => (none, st)

-- `set_default_league` (bot.py 529-538).
def set_default_league (st : ManagerState) (user_id league_key : String) :
    Bool × ManagerState :=
  match alget st.data.users user_id with
  | some entry =>
    if league_key ∈ entry.leagues ∧ almem st.data.leagues league_key then
      let users' := alset st.data.users user_id
        { entry with default_league := some league_key }
      let data' : RegistryData := { st.data with users := users' }
      (true, { data := data', persisted := data' })
    else (false, st)
  | none => (false, st)

-- `remove_league` (bot.py 540-558): unindexes the key; if it was the
-- default, promotes the first remaining key (or clears to None); deletes
-- the LeagueConfig only when this user is its owner.
def remove_league (st : ManagerState) (user_id league_key : String) :
    Bool × ManagerState :=
  match alget st.data.users user_id with
  | some entry =>
    if league_key ∈ entry.leagues then
      let remaining := entry.leagues.erase league_key
      let default' :=
        if entry.default_league = some league_key then remaining.head?
        else entry.default_league
      let users' := alset st.data.users user_id
        { leagues := remaining, default_league := default' }
      let leagues' :=
        match alget st.data.leagues league_key with
        | some info =>
            if info.owner_id = user_id then aldel st.data.leagues league_key
            else st.data.leagues
        | none => st.data.leagues
      let data' : RegistryData := { users := users', leagues := leagues' }
      (true, { data := data', persisted := data' })
    else (false, st)
  | none => (false, st)

/-! ## Name search (`find_leagues_by_name`, bot.py 596-623) -/

-- Python's substring containment `pat in hay` over char lists; the empty
-- pattern is contained in everything, as in Python.
def listStarts : List Char → List Char → Bool
  | _, [] => true
  | [], _ :: _ => false
  | h :: t, p :: ps => h = p && listStarts t ps

def listHasSub : List Char → List Char → Bool
  | [], pat => pat.isEmpty
  | h :: t, pat => listStarts (h :: t) pat || listHasSub t pat

def strHasSub (hay pat : String) : Bool := listHasSub hay.toList pat.toList

-- `s.lower().strip()`: lowercase every character, then drop whitespace
-- from both ends (structural definitions over the character list).
def normName (s : String) : String :=
  String.mk
    (((s.data.map Char.toLower).dropWhile Char.isWhitespace).reverse.dropWhile
        Char.isWhitespace).reverse

structure LeagueListing where
  key : String
  name : String
  league_id : Nat
  owner_id : String
  year : Nat
deriving Repr, DecidableEq

def listingOf (p : String × LeagueInfo) : LeagueListing :=
  { key := p.1, name := p.2.name, league_id := p.2.league_id,
    owner_id := p.2.owner_id, year := p.2.year }

-- One loop iteration: an exact (lowercased, stripped) name match is
-- inserted at index 0 of the accumulated list, a bidirectional substring
-- match is appended at the end, anything else is dropped.
def findStep (search : String) (acc : List LeagueListing)
    (p : String × LeagueInfo) : List LeagueListing :=
  let actual := normName p.2.name
  if search = actual then listingOf p :: acc
  else if strHasSub actual search || strHasSub search actual then
    acc ++ [listingOf p]
  else acc

def find_leagues_by_name (data : RegistryData) (league_name : String) :
    List LeagueListing :=
  data.leagues.foldl (findStep (normName league_name)) []

-- Predicates matching the two branches of the loop.
def exactP (search : String) (p : String × LeagueInfo) : Bool :=
  search = normName p.2.name

def subP (search : String) (p : String × LeagueInfo) : Bool :=
  !(search = normName p.2.name) &&
    (strHasSub (normName p.2.name) search || strHasSub search (normName p.2.name))

/-! ## Background refresh pass
(`BackgroundRefreshManager._refresh_common_data`, bot.py 95-160)

One pass iterates `self.data['leagues']` in insertion order.  For each
league it builds the cache key f"league_{owner_id}_default", skips the
league when that key holds a fresh entry (League objects are always
truthy), otherwise performs one remote fetch (League construction plus a
`.teams` read) and stores the handle; a per-league exception is caught
and the pass continues.  The trailing "also refresh default league"
block (bot.py 141-154) is dead code — `hasattr(globals(), 'LEAGUE_ID')`
tests an attribute on a dict instance and is always False — so it is not
modelled.  The 2-second pacing sleeps do not advance the model's single
per-pass clock.  The second component of the fold records, in order, the
league keys for which a remote fetch was attempted. -/

def bgCacheKey (info : LeagueInfo) : String :=
  "league_" ++ info.owner_id ++ "_default"

def refreshStep (connect : Connect) (now : Int)
    (acc : ESPNCache ConnHandle × List String) (p : String × LeagueInfo) :
    ESPNCache ConnHandle × List String :=
  let key := bgCacheKey p.2
  match (acc.1.get key now).1 with
  | some _ => ((acc.1.get key now).2, acc.2)
  | none =>
    match connect (reqOf p.2) with
    | .error _ => ((acc.1.get key now).2, acc.2 ++ [p.1])
    | .ok h => (((acc.1.get key now).2).set key h now, acc.2 ++ [p.1])

def refresh_common_data (connect : Connect) (now : Int)
    (data : RegistryData) (cache : ESPNCache ConnHandle) :
    ESPNCache ConnHandle × List String :=
  data.leagues.foldl (refreshStep connect now) (cache, [])

/-! ## Foreground cached lookup (`get_league`, bot.py 790-841)

The cache key is f"league_{user_id}_{league_key or 'default'}" when a
user id is given, else the global-default key.  On a miss the user's
registration is tried via `get_league_connection`; if that yields no
handle the global default league is fetched (the 3-attempt retry loop
collapses to one attempt under a deterministic `connect`).  A successful
handle is cached under the same key.  `user_id` is the decimal string of
the Discord id (f-string formatting of the int and `str(user_id)` in the
registry agree on it). -/

def fgCacheKey (user_id : Option String) (league_key : Option String)
    (glid gsid : Nat) : String :=
  match user_id with
  | some uid =>
      "league_" ++ uid ++ "_" ++
        (if pyFalsyStr league_key then "default" else league_key.getD "default")
  | none => "default_league_" ++ toString glid ++ "_" ++ toString gsid

def get_league (connect : Connect) (now : Int) (data : RegistryData)
    (glid gsid : Nat) (gswid gs2 : Option String)
    (cache : ESPNCache ConnHandle)
    (user_id league_key : Option String) :
    Except String ConnHandle × ESPNCache ConnHandle :=
  let key := fgCacheKey user_id league_key glid gsid
  let (hit, cache1) := cache.get key now
  match hit with
  | some lg => (.ok lg, cache1)
  | none =>
    let userLeague : Option ConnHandle :=
      match user_id with
      | some uid =>
          (get_league_connection connect { data := data, persisted := data }
            uid league_key).1
      | none => none
    match userLeague with
    | some lg => (.ok lg, cache1.set key lg now)
    | none =>
      match connect { league_id := glid, year := gsid,
                      creds := credsOf gswid gs2 } with
      | .ok lg => (.ok lg, cache1.set key lg now)
      | .error e =>
          (.error ("Unable to connect to ESPN Fantasy API: " ++ e), cache1)

/-! ## Scoreboard auto-refresh loop
(`ScoreboardView.auto_refresh_loop`, bot.py 4397-4462)

State: the `self.auto_refresh` flag, the local `consecutive_errors`
counter, and whether the loop is still running.  One iteration, after
the 30s sleep, either observes an external stop, or raises in
`create_updated_embeds` (increment and continue), or produces no embeds
(continue, counter untouched), or succeeds at rendering — which sets the
counter to 0 — and then attempts the message edit, whose outcome is
success, NotFound/Forbidden (break), or an HTTP/unexpected error
(increment; disable auto-refresh and break when the counter reaches the
maximum).  The `while` guard `self.auto_refresh and consecutive_errors <
max_consecutive_errors` is re-checked before the next iteration; the
model folds that check into the end of each step. -/

structure LoopState where
  autoRefresh : Bool
  errors : Nat
  running : Bool
deriving Repr, DecidableEq

inductive EditResult where
  | ok
  | notFound
  | forbidden
  | httpFail
  | otherFail
deriving Repr, DecidableEq

inductive IterEvent where
  | externalStop
  | renderFail
  | emptyEmbeds
  | renderOk (r : EditResult)
deriving Repr, DecidableEq

def whileCheck (maxErr : Nat) (s : LoopState) : LoopState :=
  if s.running ∧ ¬(s.autoRefresh = true ∧ s.errors < maxErr) then
    { s with running := false }
  else s

def iterBody (maxErr : Nat) (s : LoopState) (ev : IterEvent) : LoopState :=
  match ev with
  | .externalStop => { s with autoRefresh := false, running := false }
  | .renderFail => { s with errors := s.errors + 1 }
  | .emptyEmbeds => s
  | .renderOk r =>
    let s1 := { s with errors := 0 }
    match r with
    | .ok => s1
    | .notFound => { s1 with running := false }
    | .forbidden => { s1 with running := false }
    | .httpFail =>
        let n := s1.errors + 1
        if maxErr ≤ n then
          { s1 with errors := n, autoRefresh := false, running := false }
        else { s1 with errors := n }
    | .otherFail =>
        let n := s1.errors + 1
        if maxErr ≤ n then
          { s1 with errors := n, autoRefresh := false, running := false }
        else { s1 with errors := n }

def pollStep (maxErr : Nat) (s : LoopState) (ev : IterEvent) : LoopState :=
  if ¬ s.running then s
  else
    let s0 := whileCheck maxErr s
    if ¬ s0.running then s0
    else whileCheck maxErr (iterBody maxErr s0 ev)

-- The loop as started by the view: auto_refresh True, counter 0,
-- max_consecutive_errors = 10.
def pollRun (evs : List IterEvent) : LoopState :=
  evs.foldl (pollStep 10) { autoRefresh := true, errors := 0, running := true }

/-! ## Invariants and wellformedness of the registry -/

-- The spec's UserLeagueIndex invariant: a set default is a member of the
-- user's league list.
def userInv (e : UserEntry) : Prop :=
  ∀ k, e.default_league = some k → k ∈ e.leagues

def registryInv (d : RegistryData) : Prop :=
  ∀ uid e, alget d.users uid = some e → userInv e

-- Python-dict wellformedness of a state: unique keys in the leagues
-- table and no duplicate keys inside any user's league list.
def keysNodup {α : Type} (l : List (String × α)) : Prop :=
  (l.map Prod.fst).Nodup

def dataWF (d : RegistryData) : Prop :=
  keysNodup d.leagues ∧ ∀ uid e, alget d.users uid = some e → e.leagues.Nodup

/-! ## Concrete fixtures used by witnesses and counterexamples -/

def connFail : Connect := fun _ => .error "boom"

def connEmpty : Connect := fun r =>
  .ok { teams := [], apiName := none, league_id := r.league_id, year := r.year }

-- A healthy remote: one team, no API name, handle echoing the request.
def connOkEcho : Connect := fun r =>
  .ok { teams := [1], apiName := none, league_id := r.league_id, year := r.year }

def emptyState : ManagerState :=
  { data := { users := [], leagues := [] },
    persisted := { users := [], leagues := [] } }

-- User "7" registers league 100 ("Alpha"), then league 200 ("Beta"),
-- then makes 200 the default.
def regSt1 : ManagerState :=
  (register_league connOkEcho 2024 emptyState "7" "Alpha" 100 none none).2

def regSt2 : ManagerState :=
  (register_league connOkEcho 2024 regSt1 "7" "Beta" 200 none none).2

def regSt3 : ManagerState := (set_default_league regSt2 "7" "200_7").2

def infoA : LeagueInfo :=
  { name := "A", league_id := 1, owner_id := "u1", swid := none,
    espn_s2 := none, year := 2024 }

def infoB : LeagueInfo :=
  { name := "B", league_id := 2, owner_id := "u2", swid := none,
    espn_s2 := none, year := 2024 }

def handleA : ConnHandle :=
  { teams := [1], apiName := none, league_id := 1, year := 2024 }

def handleB : ConnHandle :=
  { teams := [1], apiName := none, league_id := 2, year := 2024 }

-- A cache in which league A's background key is fresh at time 0.
def cacheFreshA : ESPNCache ConnHandle :=
  { cache := [("league_u1_default", { data := handleA, timestamp := 0 })],
    ttl := 300 }

def emptyConnCache : ESPNCache ConnHandle := { cache := [], ttl := 300 }

def natCache1 : ESPNCache Nat :=
  { cache := [("k", { data := 42, timestamp := 0 })], ttl := 300 }

def searchFixture : RegistryData :=
  { users := [],
    leagues :=
      [("k1", { name := "beta x", league_id := 1, owner_id := "u",
                swid := none, espn_s2 := none, year := 2024 }),
       ("k2", { name := "Beta", league_id := 2, owner_id := "u",
                swid := none, espn_s2 := none, year := 2024 })] }

/-! # Lemmas -/

theorem alget_alset {α : Type} (l : List (String × α)) (k k' : String)
    (v : α) :
    alget (alset l k v) k' = if k' = k then some v else alget l k' := by
  induction l with
  | nil =>
    by_cases h : k' = k
    · simp [alget, alset, h]
    · simp [alget, alset, h, (show ¬ k = k' from fun hh => h hh.symm)]
  | cons p rest ih =>
    by_cases h : p.1 = k
    · simp only [alset, h, if_pos rfl]
      by_cases h' : k' = k
      · simp [alget, h', h]
      · simp [alget, h', (show ¬ k = k' from fun hh => h' hh.symm), h]
    · simp only [alset, if_neg h, alget]
      by_cases h'' : p.1 = k'
      · have : ¬ k' = k := fun hh => h (h''.trans hh)
        simp [alget, h'', this]
      · simp [alget, h'', ih]

theorem alget_alset_self {α : Type} (l : List (String × α)) (k : String)
    (v : α) : alget (alset l k v) k = some v := by
  simp [alget_alset]

theorem alget_alset_ne {α : Type} (l : List (String × α)) (k k' : String)
    (v : α) (h : k' ≠ k) : alget (alset l k v) k' = alget l k' := by
  simp [alget_alset, h]

theorem alget_aldel_ne {α : Type} (l : List (String × α)) (k k' : String)
    (h : k' ≠ k) : alget (aldel l k) k' = alget l k' := by
  induction l with
  | nil => simp [aldel]
  | cons p rest ih =>
    by_cases hp : p.1 = k
    · have hk : ¬ k = k' := fun hh => h hh.symm
      simp [aldel, hp, alget, hk]
    · by_cases hp' : p.1 = k'
      · simp [aldel, hp, alget, hp', h]
      · simp [aldel, hp, alget, hp', ih]

theorem alget_mem {α : Type} (l : List (String × α)) (k : String) (v : α)
    (h : alget l k = some v) : (k, v) ∈ l := by
  induction l with
  | nil => simp [alget] at h
  | cons p rest ih =>
    cases p with
    | mk a b =>
      by_cases hp : a = k
      · simp [alget, hp] at h
        subst hp
        subst h
        exact List.mem_cons_self _ _
      · simp [alget, hp] at h
        exact List.mem_cons_of_mem _ (ih h)

theorem countP_lt {β : Type} (p q : β → Bool) (l : List β) (x : β)
    (hx : x ∈ l) (hpx : p x = false) (hqx : q x = true)
    (hmono : ∀ y ∈ l, p y = true → q y = true) :
    l.countP p < l.countP q := by
  induction l with
  | nil => cases hx
  | cons a t ih =>
    rcases List.mem_cons.mp hx with rfl | hmem
    · have ht : t.countP p ≤ t.countP q :=
        List.countP_mono_left
          (fun y hy hpy => hmono y (List.mem_cons_of_mem _ hy) hpy)
      simp [List.countP_cons, hpx, hqx]
      omega
    · have hs := ih hmem
        (fun y hy hpy => hmono y (List.mem_cons_of_mem _ hy) hpy)
      have ha := hmono a (List.mem_cons_self _ _)
      cases hpa : p a <;> cases hqa : q a <;>
        (simp_all [List.countP_cons]; try omega)

theorem get_fresh {α : Type} (c : ESPNCache α) (k : String) (now : Int)
    (v : α) (h : (c.get k now).1 = some v) :
    ∃ e : CacheEntry α,
      alget c.cache k = some e ∧ e.data = v ∧ now - e.timestamp ≤ c.ttl := by
  unfold ESPNCache.get at h
  cases hg : alget c.cache k with
  | none => rw [hg] at h; simp at h
  | some e =>
    rw [hg] at h
    by_cases he : isExpiredB c.ttl now e.timestamp = true
    · simp [he] at h
    · simp [he] at h
      exact ⟨e, rfl, h, by simp [isExpiredB] at he; omega⟩

theorem get_isSome_snd {α : Type} (c : ESPNCache α) (k : String)
    (now : Int) (h : ((c.get k now).1).isSome = true) :
    (c.get k now).2 = c := by
  unfold ESPNCache.get at h ⊢
  cases hg : alget c.cache k with
  | none => simp
  | some e =>
    rw [hg] at h
    by_cases he : isExpiredB c.ttl now e.timestamp = true
    · simp [he] at h
    · simp [he]

theorem get_snd_ttl {α : Type} (c : ESPNCache α) (k : String) (now : Int) :
    ((c.get k now).2).ttl = c.ttl := by
  unfold ESPNCache.get
  cases hg : alget c.cache k with
  | none => simp
  | some e =>
    by_cases he : isExpiredB c.ttl now e.timestamp = true <;> simp [he]

theorem get_snd_alget_ne {α : Type} (c : ESPNCache α) (k k' : String)
    (now : Int) (h : k' ≠ k) :
    alget ((c.get k now).2).cache k' = alget c.cache k' := by
  unfold ESPNCache.get
  cases hg : alget c.cache k with
  | none => simp
  | some e =>
    by_cases he : isExpiredB c.ttl now e.timestamp = true <;>
      simp [he, alget_aldel_ne _ _ _ h]

theorem get_fst_congr {α : Type} (c1 c2 : ESPNCache α) (k : String)
    (now : Int) (h : alget c1.cache k = alget c2.cache k)
    (ht : c1.ttl = c2.ttl) : (c1.get k now).1 = (c2.get k now).1 := by
  unfold ESPNCache.get
  rw [h, ht]
  cases alget c2.cache k with
  | none => simp
  | some e =>
    by_cases he : isExpiredB c2.ttl now e.timestamp = true <;> simp [he]

/-! # Claim C2 — TTL cache read/expiry behavior -/

/-- C2 counterexample: the claim says a cached entry is readable only while
`now - insertedAt < ttl`, but `_is_expired` uses a strict `>` comparison,
so at `now - insertedAt = ttl` (here 300 - 0 = ttl = 300) `get` still
returns the value. -/
theorem cache_readable_at_ttl_cx :
    (natCache1.get "k" 300).1 = some 42 ∧ ¬ ((300 : Int) - 0 < 300) := by
  exact ⟨by decide, by decide⟩

/-- C2 (amended): `get(k)` immediately after `set(k, v)` returns `v`, and a
cached entry is readable only while `now - insertedAt ≤ ttl`; once time
advances strictly past the TTL, `get(k)` returns absent, the expired entry
is removed from the store by that read, and `stats().active` decreases. -/
theorem cache_ttl_amended (c : ESPNCache Nat) (k : String) (v : Nat)
    (t0 t1 : Int) (h0 : 0 ≤ c.ttl) :
    ((c.set k v t0).get k t0).1 = some v ∧
    (c.ttl < t1 - t0 →
      ((c.set k v t0).get k t1).1 = none ∧
      ((c.set k v t0).get k t1).2.cache = aldel (c.set k v t0).cache k ∧
      ((c.set k v t0).get_stats t1).active <
        ((c.set k v t0).get_stats t0).active) := by
  have hfresh : isExpiredB c.ttl t0 t0 = false := by
    simp [isExpiredB]; omega
  constructor
  · simp [ESPNCache.get, ESPNCache.set, alget_alset_self, hfresh]
  · intro hlt
    have hexp : isExpiredB c.ttl t1 t0 = true := by
      simp [isExpiredB]; omega
    refine ⟨?_, ?_, ?_⟩
    · simp [ESPNCache.get, ESPNCache.set, alget_alset_self, hexp]
    · simp [ESPNCache.get, ESPNCache.set, alget_alset_self, hexp]
    · have hmem : (k, ({ data := v, timestamp := t0 } : CacheEntry Nat)) ∈
          (c.set k v t0).cache :=
        alget_mem _ _ _ (by simp [ESPNCache.set, alget_alset_self])
      have hcount :
          ((c.set k v t0).cache.countP
            (fun p => isExpiredB c.ttl t0 p.2.timestamp)) <
          ((c.set k v t0).cache.countP
            (fun p => isExpiredB c.ttl t1 p.2.timestamp)) := by
        refine countP_lt _ _ _ _ hmem ?_ ?_ ?_
        · exact hfresh
        · exact hexp
        · intro y hy hyp
          simp [isExpiredB] at hyp ⊢
          omega
      have hle :
          ((c.set k v t0).cache.countP
            (fun p => isExpiredB c.ttl t1 p.2.timestamp)) ≤
          (c.set k v t0).cache.length := List.countP_le_length _
      simp only [ESPNCache.get_stats, ESPNCache.set] at hcount hle ⊢
      omega

/-- C2 witness: amended theorem evaluated at a one-entry cache with
ttl = 300, inserted at time 0 and read back at times 0 and 301. -/
theorem cache_ttl_amended_w :
    ((({ cache := [], ttl := 300 } : ESPNCache Nat).set "k" 7 0).get
        "k" 0).1 = some 7 ∧
    ((({ cache := [], ttl := 300 } : ESPNCache Nat).set "k" 7 0).get
        "k" 301).1 = none := by
  have h := cache_ttl_amended { cache := [], ttl := 300 } "k" 7 0 301
    (by decide)
  exact ⟨h.1, (h.2 (by decide)).1⟩

/-! # Claim C1 — failed registration raises and persists nothing -/

/-- C1: if validation via the client factory fails (the connection attempt
raises, or the returned team list is empty), `register_league` returns an
error carrying the provider's message, and the whole manager state — the
leagues table, every user's index, and the persisted store — is exactly
what it was before the call. -/
theorem register_fail_no_persist (connect : Connect) (seasonYear : Nat)
    (st : ManagerState) (uid lname : String) (lid : Nat)
    (swid s2 : Option String) :
    (∀ e : String,
      connect { league_id := lid, year := seasonYear,
                creds := credsOf swid s2 } = .error e →
      register_league connect seasonYear st uid lname lid swid s2 =
        (.error ("Unable to connect to league: " ++ e), st)) ∧
    (∀ h : ConnHandle,
      connect { league_id := lid, year := seasonYear,
                creds := credsOf swid s2 } = .ok h →
      h.teams = [] →
      register_league connect seasonYear st uid lname lid swid s2 =
        (.error ("Unable to connect to league: League has no teams"), st)) := by
  constructor
  · intro e he
    simp [register_league, he]
  · intro h hok hteams
    simp [register_league, hok, hteams]

/-- C1 witness: a remote that raises "boom", and a remote that returns an
empty team list, both applied to the empty state. -/
theorem register_fail_no_persist_w :
    register_league connFail 2024 emptyState "7" "Alpha" 100 none none =
      (.error "Unable to connect to league: boom", emptyState) ∧
    register_league connEmpty 2024 emptyState "7" "Alpha" 100 none none =
      (.error "Unable to connect to league: League has no teams",
        emptyState) := by
  exact ⟨(register_fail_no_persist connFail 2024 emptyState "7" "Alpha" 100
            none none).1 "boom" rfl,
         (register_fail_no_persist connEmpty 2024 emptyState "7" "Alpha" 100
            none none).2
           { teams := [], apiName := none, league_id := 100, year := 2024 }
           rfl rfl⟩

/-! # Claim C10 — get_league_connection is total and returns absent -/

/-- C10: `get_league_connection` never raises: it returns `none` both when
no matching registration exists (no user entry / no default when the key
is omitted, or a key that is not in the leagues table) and when the
registration exists but constructing the remote handle fails (the
exception is swallowed), so the two situations are indistinguishable to
the caller; the manager state is returned unchanged in every case. -/
theorem get_connection_total_absent (connect : Connect) (st : ManagerState)
    (uid : String) (lkey : Option String) :
    ((get_league_connection connect st uid lkey).2 = st) ∧
    (resolveKey st.data uid lkey = none →
      (get_league_connection connect st uid lkey).1 = none) ∧
    (∀ k, resolveKey st.data uid lkey = some k →
      alget st.data.leagues k = none →
      (get_league_connection connect st uid lkey).1 = none) ∧
    (∀ k info e, resolveKey st.data uid lkey = some k →
      alget st.data.leagues k = some info →
      connect (reqOf info) = .error e →
      (get_league_connection connect st uid lkey).1 = none) ∧
    (pyFalsyStr lkey = true → alget st.data.users uid = none →
      resolveKey st.data uid lkey = none) := by
  refine ⟨?_, ?_, ?_, ?_, ?_⟩
  · unfold get_league_connection
    cases hr : resolveKey st.data uid lkey with
    | none => rfl
    | some k =>
      cases hl : alget st.data.leagues k with
      | none => simp [hl]
      | some info =>
        cases hc : connect (reqOf info) with
        | ok h => simp [hl, hc]
        | error e => simp [hl, hc]
  · intro hr
    simp [get_league_connection, hr]
  · intro k hr hl
    simp [get_league_connection, hr, hl]
  · intro k info e hr hl hc
    simp [get_league_connection, hr, hl, hc]
  · intro hf hu
    simp [resolveKey, hf, hu]

/-- C10 witness: an unregistered user resolves to absent; a registered user
whose remote constructor raises also gets absent, with the state returned
unchanged. -/
theorem get_connection_total_absent_w :
    (get_league_connection connOkEcho emptyState "7" none).1 = none ∧
    (get_league_connection connFail regSt3 "7" none).1 = none ∧
    (get_league_connection connFail regSt3 "7" none).2 = regSt3 := by
  refine ⟨(get_connection_total_absent connOkEcho emptyState "7" none).2.1
            (by rfl),
          (get_connection_total_absent connFail regSt3 "7" none).2.2.2.1
            "200_7"
            { name := "Beta", league_id := 200, owner_id := "7",
              swid := none, espn_s2 := none, year := 2024 }
            "boom" (by rfl) (by rfl) (by rfl),
          (get_connection_total_absent connFail regSt3 "7" none).1⟩

/-! # Claim C6 — default league is always a member of the user's index -/

/-- C6: the invariant "a set `default_league` is a member of the user's
league list" is preserved by `register_league`, `set_default_league` and
`remove_league` (for every user), and removing the league that is the
current default promotes the first remaining league in the user's index,
or clears the default to absent when none remains. -/
theorem default_league_invariant_preserved :
    (∀ (connect : Connect) (sy : Nat) (st : ManagerState)
        (uid lname : String) (lid : Nat) (swid s2 : Option String),
      registryInv st.data →
      registryInv
        (register_league connect sy st uid lname lid swid s2).2.data) ∧
    (∀ (st : ManagerState) (uid k : String),
      registryInv st.data →
      registryInv (set_default_league st uid k).2.data) ∧
    (∀ (st : ManagerState) (uid k : String),
      registryInv st.data →
      registryInv (remove_league st uid k).2.data) ∧
    (∀ (st : ManagerState) (uid k : String) (e : UserEntry),
      alget st.data.users uid = some e →
      e.default_league = some k →
      k ∈ e.leagues →
      alget (remove_league st uid k).2.data.users uid =
        some { leagues := e.leagues.erase k,
               default_league := (e.leagues.erase k).head? }) := by
  refine ⟨?_, ?_, ?_, ?_⟩
  · intro connect sy st uid lname lid swid s2 hinv
    rcases hc : connect { league_id := lid, year := sy,
                          creds := credsOf swid s2 } with e | h
    · simp only [register_league, hc]
      exact hinv
    · by_cases ht : h.teams.isEmpty = true
      · simp only [register_league, hc, ht, if_pos]
        exact hinv
      · simp only [register_league, hc, ht, if_neg, Bool.false_eq_true,
          not_false_iff]
        intro uid' e' hget
        rw [alget_alset] at hget
        by_cases huid : uid' = uid
        · rw [if_pos huid] at hget
          injection hget with hget
          subst hget
          intro k hk
          simp only at hk ⊢
          by_cases hdf :
              pyFalsyStr
                ((alget st.data.users uid).getD
                  { leagues := [], default_league := none }).default_league
                = true
          · rw [if_pos hdf] at hk
            injection hk with hk
            subst hk
            by_cases hmem : mkLeagueKey lid uid ∈
                ((alget st.data.users uid).getD
                  { leagues := [], default_league := none }).leagues
            · rw [if_pos hmem]
              exact hmem
            · rw [if_neg hmem]
              exact List.mem_append_right _ (List.mem_singleton_self _)
          · rw [if_neg hdf] at hk
            cases hu : alget st.data.users uid with
            | none =>
              rw [hu] at hdf
              simp [pyFalsyStr] at hdf
            | some e0 =>
              rw [hu] at hk
              have hmem0 : k ∈ e0.leagues := hinv uid e0 hu k hk
              by_cases hmem : mkLeagueKey lid uid ∈
                  ((some e0).getD
                    { leagues := [], default_league := none }).leagues
              · rw [if_pos hmem]
                exact hmem0
              · rw [if_neg hmem]
                exact List.mem_append_left _ hmem0
        · rw [if_neg huid] at hget
          exact hinv uid' e' hget
  · intro st uid k hinv
    unfold set_default_league
    cases hu : alget st.data.users uid with
    | none => exact hinv
    | some entry =>
      dsimp only
      by_cases hg : k ∈ entry.leagues ∧ almem st.data.leagues k = true
      · rw [if_pos hg]
        dsimp only
        intro uid' e' hget
        rw [alget_alset] at hget
        by_cases huid : uid' = uid
        · rw [if_pos huid] at hget
          injection hget with hget
          subst hget
          intro k' hk'
          simp only at hk'
          injection hk' with hk'
          subst hk'
          exact hg.1
        · rw [if_neg huid] at hget
          exact hinv uid' e' hget
      · rw [if_neg hg]
        exact hinv
  · intro st uid k hinv
    unfold remove_league
    cases hu : alget st.data.users uid with
    | none => exact hinv
    | some entry =>
      dsimp only
      by_cases hmem : k ∈ entry.leagues
      · rw [if_pos hmem]
        dsimp only
        intro uid' e' hget
        rw [alget_alset] at hget
        by_cases huid : uid' = uid
        · rw [if_pos huid] at hget
          injection hget with hget
          subst hget
          intro k' hk'
          simp only at hk' ⊢
          by_cases hd : entry.default_league = some k
          · rw [if_pos hd] at hk'
            cases hrem : entry.leagues.erase k with
            | nil => rw [hrem] at hk'; simp at hk'
            | cons a t =>
              rw [hrem] at hk'
              simp only [List.head?] at hk'
              injection hk' with hk'
              subst hk'
              exact List.mem_cons_self _ _
          · rw [if_neg hd] at hk'
            have hk'mem : k' ∈ entry.leagues := hinv uid entry hu k' hk'
            have hne : k' ≠ k := by
              intro hkk
              exact hd (hkk ▸ hk')
            exact (List.mem_erase_of_ne hne).mpr hk'mem
        · rw [if_neg huid] at hget
          exact hinv uid' e' hget
      · rw [if_neg hmem]
        exact hinv
  · intro st uid k e hu hd hk
    unfold remove_league
    rw [hu]
    dsimp only
    rw [if_pos hk, hd, if_pos rfl]
    dsimp only
    exact alget_alset_self _ _ _

/-- C6 witness: in the two-league state for user "7" with default
"200_7", removing the default promotes the first remaining league, and
the invariant holds after a removal on that state. -/
theorem default_league_invariant_preserved_w :
    alget
      (remove_league regSt3 "7" "200_7").2.data.users "7" =
      some { leagues := ["100_7"], default_league := some "100_7" } ∧
    registryInv (remove_league regSt3 "7" "200_7").2.data := by
  constructor
  · have h := default_league_invariant_preserved.2.2.2 regSt3 "7" "200_7"
      { leagues := ["100_7", "200_7"], default_league := some "200_7" }
      (by rfl) (by rfl) (by decide)
    exact h
  · refine default_league_invariant_preserved.2.2.1 regSt3 "7" "200_7" ?_
    intro uid e hget k hk
    have hmem := alget_mem _ _ _ hget
    have husers : regSt3.data.users =
        [("7", { leagues := ["100_7", "200_7"],
                 default_league := some "200_7" })] := by decide
    rw [husers] at hmem
    simp only [List.mem_singleton, Prod.mk.injEq] at hmem
    rcases hmem with ⟨h1, h2⟩
    subst h2
    injection hk with hk
    subst hk
    decide

/-! # Claim C5 — auto-refresh consecutive-error threshold -/

/-- C5: in `auto_refresh_loop`, failed iterations below the threshold
increment the counter and the loop continues, and a successful iteration
resets the counter to 0; but reaching `max_consecutive_errors = 10`
consecutive failures never flips `auto_refresh` to false.  Ten
consecutive `create_updated_embeds` failures end the loop with the flag
still true (the while guard exits without touching it); ten consecutive
message-edit failures do not even reach the threshold, because the
counter is reset to 0 by the successful render immediately before every
edit attempt, so the branch that sets `auto_refresh = False` is
unreachable: the loop itself never turns the flag off. -/
theorem poll_threshold_behavior :
    (pollRun (List.replicate 10 .renderFail ++ [.renderOk .ok]) =
      { autoRefresh := true, errors := 10, running := false }) ∧
    (pollRun (List.replicate 10 (.renderOk .httpFail)) =
      { autoRefresh := true, errors := 1, running := true }) ∧
    (pollRun (List.replicate 9 .renderFail ++ [.renderOk .ok]) =
      { autoRefresh := true, errors := 0, running := true }) ∧
    (∀ (s : LoopState) (ev : IterEvent), ev ≠ .externalStop →
      s.autoRefresh = true → (pollStep 10 s ev).autoRefresh = true) := by
  refine ⟨by decide, by decide, by decide, ?_⟩
  intro s ev hev hs
  cases ev with
  | externalStop => exact absurd rfl hev
  | renderFail =>
    simp only [pollStep, whileCheck, iterBody, hs]
    split_ifs <;> simp [hs]
  | emptyEmbeds =>
    simp only [pollStep, whileCheck, iterBody, hs]
    split_ifs <;> simp [hs]
  | renderOk r =>
    cases r <;>
      (simp only [pollStep, whileCheck, iterBody, hs]
       split_ifs <;> simp_all)

/-- C5 witness: the flag-preservation part applied to the initial loop
state and a render failure. -/
theorem poll_threshold_behavior_w :
    (pollStep 10 { autoRefresh := true, errors := 0, running := true }
      .renderFail).autoRefresh = true := by
  exact poll_threshold_behavior.2.2.2
    { autoRefresh := true, errors := 0, running := true } .renderFail
    (by decide) rfl

/-! # Claim C3 — one refresh pass fetches only the stale league -/

theorem set_ttl {α : Type} (c : ESPNCache α) (k : String) (v : α)
    (now : Int) : (c.set k v now).ttl = c.ttl := rfl

/-- C3: in one background refresh pass over registered leagues A and B,
where A's cache key holds a fresh entry and B's cache key is stale or
absent, exactly one remote fetch occurs — only B is fetched, its result
is stored under B's key, and A's fresh entry is untouched — in either
iteration order. -/
theorem refresh_pass_fetches_only_stale (connect : Connect) (now : Int)
    (cache : ESPNCache ConnHandle)
    (users : List (String × UserEntry)) (A B : String × LeagueInfo)
    (hB : ConnHandle)
    (hkeys : bgCacheKey A.2 ≠ bgCacheKey B.2)
    (hfreshA : ((cache.get (bgCacheKey A.2) now).1).isSome = true)
    (hstaleB : (cache.get (bgCacheKey B.2) now).1 = none)
    (hfetchB : connect (reqOf B.2) = .ok hB) :
    ((refresh_common_data connect now
        { users := users, leagues := [A, B] } cache).2 = [B.1] ∧
      alget (refresh_common_data connect now
        { users := users, leagues := [A, B] } cache).1.cache
        (bgCacheKey B.2) = some { data := hB, timestamp := now } ∧
      ((refresh_common_data connect now
        { users := users, leagues := [A, B] } cache).1.get
          (bgCacheKey A.2) now).1 = (cache.get (bgCacheKey A.2) now).1) ∧
    ((refresh_common_data connect now
        { users := users, leagues := [B, A] } cache).2 = [B.1] ∧
      alget (refresh_common_data connect now
        { users := users, leagues := [B, A] } cache).1.cache
        (bgCacheKey B.2) = some { data := hB, timestamp := now } ∧
      ((refresh_common_data connect now
        { users := users, leagues := [B, A] } cache).1.get
          (bgCacheKey A.2) now).1 = (cache.get (bgCacheKey A.2) now).1) := by
  have hsndA := get_isSome_snd cache (bgCacheKey A.2) now hfreshA
  have stepA : refreshStep connect now (cache, ([] : List String)) A =
      (cache, []) := by
    obtain ⟨v, hv⟩ := Option.isSome_iff_exists.mp hfreshA
    unfold refreshStep
    dsimp only
    rw [hv]
    dsimp only
    rw [hsndA]
  have stepB : ∀ fetched : List String,
      refreshStep connect now (cache, fetched) B =
      (((cache.get (bgCacheKey B.2) now).2).set (bgCacheKey B.2) hB now,
        fetched ++ [B.1]) := by
    intro fetched
    unfold refreshStep
    dsimp only
    rw [hstaleB]
    dsimp only
    rw [hfetchB]
  -- the written-back cache agrees with the original on A's key and ttl
  have hAalget : ∀ c2 : ESPNCache ConnHandle,
      alget ((((cache.get (bgCacheKey B.2) now).2).set
          (bgCacheKey B.2) hB now).cache) (bgCacheKey A.2) =
        alget cache.cache (bgCacheKey A.2) := by
    intro c2
    rw [show (((cache.get (bgCacheKey B.2) now).2).set
        (bgCacheKey B.2) hB now).cache =
        alset ((cache.get (bgCacheKey B.2) now).2).cache (bgCacheKey B.2)
          { data := hB, timestamp := now } from rfl]
    rw [alget_alset_ne _ _ _ _ hkeys]
    exact get_snd_alget_ne cache (bgCacheKey B.2) (bgCacheKey A.2) now hkeys
  have hAget : ((((cache.get (bgCacheKey B.2) now).2).set
      (bgCacheKey B.2) hB now).get (bgCacheKey A.2) now).1 =
      (cache.get (bgCacheKey A.2) now).1 := by
    apply get_fst_congr
    · exact hAalget cache
    · rw [set_ttl]
      exact get_snd_ttl cache (bgCacheKey B.2) now
  constructor
  · -- order [A, B]
    have hrun : refresh_common_data connect now
        { users := users, leagues := [A, B] } cache =
        (((cache.get (bgCacheKey B.2) now).2).set (bgCacheKey B.2) hB now,
          [B.1]) := by
      unfold refresh_common_data
      rw [show ([A, B] : List (String × LeagueInfo)).foldl
          (refreshStep connect now) (cache, []) =
          refreshStep connect now
            (refreshStep connect now (cache, []) A) B from rfl]
      rw [stepA, stepB]
      rfl
    refine ⟨by rw [hrun], ?_, ?_⟩
    · rw [hrun]
      exact alget_alset_self _ _ _
    · rw [hrun]
      exact hAget
  · -- order [B, A]
    have hfreshA2 : (((((cache.get (bgCacheKey B.2) now).2).set
        (bgCacheKey B.2) hB now).get (bgCacheKey A.2) now).1).isSome =
        true := by
      rw [hAget]
      exact hfreshA
    have stepA2 : refreshStep connect now
        ((((cache.get (bgCacheKey B.2) now).2).set (bgCacheKey B.2) hB now),
          [B.1]) A =
        (((cache.get (bgCacheKey B.2) now).2).set (bgCacheKey B.2) hB now,
          [B.1]) := by
      obtain ⟨v, hv⟩ := Option.isSome_iff_exists.mp hfreshA2
      unfold refreshStep
      dsimp only
      rw [hv]
      dsimp only
      rw [get_isSome_snd _ _ _ hfreshA2]
    have hrun : refresh_common_data connect now
        { users := users, leagues := [B, A] } cache =
        (((cache.get (bgCacheKey B.2) now).2).set (bgCacheKey B.2) hB now,
          [B.1]) := by
      unfold refresh_common_data
      rw [show ([B, A] : List (String × LeagueInfo)).foldl
          (refreshStep connect now) (cache, []) =
          refreshStep connect now
            (refreshStep connect now (cache, []) B) A from rfl]
      rw [stepB]
      simp only [List.nil_append]
      rw [stepA2]
    refine ⟨by rw [hrun], ?_, ?_⟩
    · rw [hrun]
      exact alget_alset_self _ _ _
    · rw [hrun]
      exact hAget

/-- C3 witness: league A (owner u1) fresh in the cache at time 0, league B
(owner u2) absent; the pass fetches exactly B and caches it. -/
theorem refresh_pass_fetches_only_stale_w :
    (refresh_common_data connOkEcho 0
      { users := [], leagues := [("1_u1", infoA), ("2_u2", infoB)] }
      cacheFreshA).2 = ["2_u2"] ∧
    alget (refresh_common_data connOkEcho 0
      { users := [], leagues := [("1_u1", infoA), ("2_u2", infoB)] }
      cacheFreshA).1.cache "league_u2_default" =
      some { data := handleB, timestamp := 0 } := by
  have h := refresh_pass_fetches_only_stale connOkEcho 0 cacheFreshA []
    ("1_u1", infoA) ("2_u2", infoB) handleB
    (by decide) (by rfl) (by rfl) (by rfl)
  exact ⟨h.1.1, h.1.2.1⟩

/-! # Claim C9 — a failing league does not abort the pass -/

/-- C9: within one background pass, a per-league fetch failure is caught
and the pass continues: processing league A with a failing fetch hands
the rest of the list exactly the cache left by A's read (no abort), and
concretely, for a pass over [A, B] where fetching A raises and B's key
is stale or absent, B is still fetched and its result stored under B's
key. -/
theorem refresh_pass_resilient (connect : Connect) (now : Int)
    (cache : ESPNCache ConnHandle)
    (users : List (String × UserEntry)) (A B : String × LeagueInfo)
    (eA : String) (hB : ConnHandle)
    (hfailA : connect (reqOf A.2) = .error eA)
    (hmissA : (cache.get (bgCacheKey A.2) now).1 = none) :
    (∀ (rest : List (String × LeagueInfo)) (fetched : List String),
      (A :: rest).foldl (refreshStep connect now) (cache, fetched) =
        rest.foldl (refreshStep connect now)
          ((cache.get (bgCacheKey A.2) now).2, fetched ++ [A.1])) ∧
    (bgCacheKey A.2 ≠ bgCacheKey B.2 →
      (((cache.get (bgCacheKey A.2) now).2).get (bgCacheKey B.2) now).1 =
        none →
      connect (reqOf B.2) = .ok hB →
      (refresh_common_data connect now
        { users := users, leagues := [A, B] } cache).2 = [A.1, B.1] ∧
      alget (refresh_common_data connect now
        { users := users, leagues := [A, B] } cache).1.cache
        (bgCacheKey B.2) = some { data := hB, timestamp := now }) := by
  have stepA : ∀ fetched : List String,
      refreshStep connect now (cache, fetched) A =
      ((cache.get (bgCacheKey A.2) now).2, fetched ++ [A.1]) := by
    intro fetched
    unfold refreshStep
    dsimp only
    rw [hmissA]
    dsimp only
    rw [hfailA]
  constructor
  · intro rest fetched
    rw [show (A :: rest).foldl (refreshStep connect now) (cache, fetched) =
        rest.foldl (refreshStep connect now)
          (refreshStep connect now (cache, fetched) A) from rfl]
    rw [stepA]
  · intro hkeys hmissB hfetchB
    have stepB : refreshStep connect now
        ((cache.get (bgCacheKey A.2) now).2, [A.1]) B =
        ((((cache.get (bgCacheKey A.2) now).2).get (bgCacheKey B.2) now).2.set
            (bgCacheKey B.2) hB now, [A.1, B.1]) := by
      unfold refreshStep
      dsimp only
      rw [hmissB]
      dsimp only
      rw [hfetchB]
      rfl
    have hrun : refresh_common_data connect now
        { users := users, leagues := [A, B] } cache =
        ((((cache.get (bgCacheKey A.2) now).2).get (bgCacheKey B.2) now).2.set
            (bgCacheKey B.2) hB now, [A.1, B.1]) := by
      unfold refresh_common_data
      rw [show ([A, B] : List (String × LeagueInfo)).foldl
          (refreshStep connect now) (cache, []) =
          refreshStep connect now
            (refreshStep connect now (cache, []) A) B from rfl]
      rw [stepA]
      simp only [List.nil_append]
      rw [stepB]
    refine ⟨by rw [hrun], ?_⟩
    rw [hrun]
    exact alget_alset_self _ _ _

/-- C9 witness: fetching A ("u1") raises while B ("u2") is absent from the
cache; the pass still fetches B and stores it, recording both attempts. -/
theorem refresh_pass_resilient_w :
    (refresh_common_data
      (fun r => if r.league_id = 1 then .error "boom"
                else .ok { teams := [1], apiName := none,
                           league_id := r.league_id, year := r.year })
      0 { users := [], leagues := [("1_u1", infoA), ("2_u2", infoB)] }
      emptyConnCache).2 = ["1_u1", "2_u2"] ∧
    alget (refresh_common_data
      (fun r => if r.league_id = 1 then .error "boom"
                else .ok { teams := [1], apiName := none,
                           league_id := r.league_id, year := r.year })
      0 { users := [], leagues := [("1_u1", infoA), ("2_u2", infoB)] }
      emptyConnCache).1.cache "league_u2_default" =
      some { data := handleB, timestamp := 0 } := by
  exact (refresh_pass_resilient
    (fun r => if r.league_id = 1 then .error "boom"
              else .ok { teams := [1], apiName := none,
                         league_id := r.league_id, year := r.year })
    0 emptyConnCache [] ("1_u1", infoA) ("2_u2", infoB) "boom" handleB
    (by rfl) (by rfl)).2 (by decide) (by rfl) (by rfl)

/-! # Claim C7 — re-registering the same composite key replaces wholesale -/

theorem alset_cons_pos {α : Type} (p : String × α)
    (rest : List (String × α)) (k : String) (v : α) (hp : p.1 = k) :
    alset (p :: rest) k v = (k, v) :: rest := by
  simp [alset, hp]

theorem alset_cons_neg {α : Type} (p : String × α)
    (rest : List (String × α)) (k : String) (v : α) (hp : ¬ p.1 = k) :
    alset (p :: rest) k v = p :: alset rest k v := by
  simp [alset, hp]

theorem mem_fst_alset {α : Type} (l : List (String × α)) (k x : String)
    (v : α) (h : x ∈ (alset l k v).map Prod.fst) :
    x ∈ l.map Prod.fst ∨ x = k := by
  induction l with
  | nil =>
    simp [alset] at h
    exact Or.inr h
  | cons p rest ih =>
    by_cases hp : p.1 = k
    · rw [alset_cons_pos p rest k v hp] at h
      simp only [List.map_cons, List.mem_cons] at h
      rcases h with h | h
      · exact Or.inr h
      · exact Or.inl (List.mem_cons_of_mem _ h)
    · rw [alset_cons_neg p rest k v hp] at h
      simp only [List.map_cons, List.mem_cons] at h
      rcases h with h | h
      · exact Or.inl (List.mem_cons.mpr (Or.inl h))
      · rcases ih h with h' | h'
        · exact Or.inl (List.mem_cons_of_mem _ h')
        · exact Or.inr h'

theorem keysNodup_alset {α : Type} (l : List (String × α)) (k : String)
    (v : α) (h : keysNodup l) : keysNodup (alset l k v) := by
  induction l with
  | nil => simp [alset, keysNodup]
  | cons p rest ih =>
    unfold keysNodup at h ⊢
    simp only [List.map_cons, List.nodup_cons] at h
    by_cases hp : p.1 = k
    · rw [alset_cons_pos p rest k v hp]
      simp only [List.map_cons, List.nodup_cons]
      exact ⟨hp ▸ h.1, h.2⟩
    · rw [alset_cons_neg p rest k v hp]
      simp only [List.map_cons, List.nodup_cons]
      refine ⟨?_, ih h.2⟩
      intro hmem
      rcases mem_fst_alset rest k p.1 v hmem with h' | h'
      · exact h.1 h'
      · exact hp h'

def keyIs {α : Type} (k : String) (p : String × α) : Bool := p.1 = k

theorem countP_alset_self {α : Type} (l : List (String × α)) (k : String)
    (v : α) (h : keysNodup l) : (alset l k v).countP (keyIs k) = 1 := by
  induction l with
  | nil => simp [alset, List.countP_cons, keyIs]
  | cons p rest ih =>
    unfold keysNodup at h
    simp only [List.map_cons, List.nodup_cons] at h
    by_cases hp : p.1 = k
    · have hz : rest.countP (keyIs k) = 0 := by
        refine List.countP_eq_zero.mpr ?_
        intro a ha hka
        apply h.1
        have ha1 : a.1 = k := by simpa [keyIs] using hka
        rw [hp, ← ha1]
        exact List.mem_map_of_mem Prod.fst ha
      rw [alset_cons_pos p rest k v hp]
      simp [List.countP_cons, hz, keyIs]
    · have ihv := ih h.2
      rw [alset_cons_neg p rest k v hp]
      simp [List.countP_cons, ihv, keyIs, hp]

-- The two data components produced by a successful registration.
theorem register_ok_leagues (connect : Connect) (sy : Nat)
    (st : ManagerState) (uid n : String) (lid : Nat)
    (sw s2 : Option String) (h : ConnHandle)
    (hc : connect { league_id := lid, year := sy,
                    creds := credsOf sw s2 } = .ok h)
    (hE : h.teams.isEmpty = false) :
    (register_league connect sy st uid n lid sw s2).2.data.leagues =
      alset st.data.leagues (mkLeagueKey lid uid)
        { name := h.apiName.getD n, league_id := lid, owner_id := uid,
          swid := sw, espn_s2 := s2, year := sy } := by
  simp [register_league, hc, hE]

theorem register_ok_users (connect : Connect) (sy : Nat)
    (st : ManagerState) (uid n : String) (lid : Nat)
    (sw s2 : Option String) (h : ConnHandle)
    (hc : connect { league_id := lid, year := sy,
                    creds := credsOf sw s2 } = .ok h)
    (hE : h.teams.isEmpty = false) :
    (register_league connect sy st uid n lid sw s2).2.data.users =
      alset st.data.users uid
        { leagues :=
            if mkLeagueKey lid uid ∈
                ((alget st.data.users uid).getD
                  { leagues := [], default_league := none }).leagues then
              ((alget st.data.users uid).getD
                { leagues := [], default_league := none }).leagues
            else
              ((alget st.data.users uid).getD
                { leagues := [], default_league := none }).leagues ++
                [mkLeagueKey lid uid],
          default_league :=
            if pyFalsyStr
                ((alget st.data.users uid).getD
                  { leagues := [], default_league := none }).default_league then
              some (mkLeagueKey lid uid)
            else
              ((alget st.data.users uid).getD
                { leagues := [], default_league := none }).default_league } := by
  simp [register_league, hc, hE]

/-- C7: registering the same composite key (league id, user id) twice —
with both validations succeeding — leaves exactly one entry for that key
in the leagues table, holding exactly the record computed from the second
registration (latest display name), and the key appears exactly once in
the user's league list. -/
theorem register_idempotent_composite_key (connect1 connect2 : Connect)
    (sy : Nat) (st : ManagerState) (uid n1 n2 : String) (lid : Nat)
    (sw1 s21 sw2 s22 : Option String) (h1 h2 : ConnHandle)
    (hwf : dataWF st.data)
    (hc1 : connect1 { league_id := lid, year := sy,
                      creds := credsOf sw1 s21 } = .ok h1)
    (ht1 : h1.teams ≠ [])
    (hc2 : connect2 { league_id := lid, year := sy,
                      creds := credsOf sw2 s22 } = .ok h2)
    (ht2 : h2.teams ≠ []) :
    ((register_league connect2 sy
        (register_league connect1 sy st uid n1 lid sw1 s21).2
        uid n2 lid sw2 s22).2.data.leagues.countP
          (keyIs (mkLeagueKey lid uid)) = 1) ∧
    (alget (register_league connect2 sy
        (register_league connect1 sy st uid n1 lid sw1 s21).2
        uid n2 lid sw2 s22).2.data.leagues (mkLeagueKey lid uid) =
      some { name := h2.apiName.getD n2, league_id := lid,
             owner_id := uid, swid := sw2, espn_s2 := s22, year := sy }) ∧
    ((alget (register_league connect2 sy
        (register_league connect1 sy st uid n1 lid sw1 s21).2
        uid n2 lid sw2 s22).2.data.users uid).map
          (fun e => e.leagues.count (mkLeagueKey lid uid)) = some 1) := by
  have hE1 : h1.teams.isEmpty = false := by
    cases hl : h1.teams.isEmpty with
    | false => rfl
    | true => exact absurd (List.isEmpty_iff.mp hl) ht1
  have hE2 : h2.teams.isEmpty = false := by
    cases hl : h2.teams.isEmpty with
    | false => rfl
    | true => exact absurd (List.isEmpty_iff.mp hl) ht2
  have hL1 := register_ok_leagues connect1 sy st uid n1 lid sw1 s21 h1 hc1 hE1
  have hU1 := register_ok_users connect1 sy st uid n1 lid sw1 s21 h1 hc1 hE1
  have hL2 := register_ok_leagues connect2 sy
    (register_league connect1 sy st uid n1 lid sw1 s21).2 uid n2 lid sw2 s22
    h2 hc2 hE2
  have hU2 := register_ok_users connect2 sy
    (register_league connect1 sy st uid n1 lid sw1 s21).2 uid n2 lid sw2 s22
    h2 hc2 hE2
  refine ⟨?_, ?_, ?_⟩
  · rw [hL2, hL1]
    exact countP_alset_self _ _ _ (keysNodup_alset _ _ _ hwf.1)
  · rw [hL2]
    exact alget_alset_self _ _ _
  · rw [hU2, hU1]
    simp only [alget_alset_self, Option.getD_some, Option.map_some',
      Option.some.injEq]
    set E0 := (alget st.data.users uid).getD
      { leagues := [], default_league := none } with hE0def
    set key := mkLeagueKey lid uid with hkeydef
    set L1 := if key ∈ E0.leagues then E0.leagues
              else E0.leagues ++ [key] with hL1def
    have hkeyL1 : key ∈ L1 := by
      rw [hL1def]
      by_cases hm0 : key ∈ E0.leagues
      · rw [if_pos hm0]
        exact hm0
      · rw [if_neg hm0]
        exact List.mem_append_right _ (List.mem_singleton_self _)
    rw [if_pos hkeyL1]
    by_cases hm0 : key ∈ E0.leagues
    · rw [hL1def, if_pos hm0]
      have hnodup : E0.leagues.Nodup := by
        rw [hE0def]
        cases hu : alget st.data.users uid with
        | none => simp
        | some e0 =>
          simp only [Option.getD_some]
          exact hwf.2 uid e0 hu
      exact List.count_eq_one_of_mem hnodup hm0
    · rw [hL1def, if_neg hm0]
      rw [List.count_append]
      rw [List.count_eq_zero.mpr hm0]
      simp

/-- C7 witness: user "7" registers league 100 twice ("Alpha" then
"Beta2") against a healthy remote; the table keeps one entry with the
latest name and the user's index lists the key once. -/
theorem register_idempotent_composite_key_w :
    ((register_league connOkEcho 2024
        (register_league connOkEcho 2024 emptyState "7" "Alpha" 100
          none none).2
        "7" "Beta2" 100 none none).2.data.leagues.countP
          (keyIs "100_7") = 1) ∧
    (alget (register_league connOkEcho 2024
        (register_league connOkEcho 2024 emptyState "7" "Alpha" 100
          none none).2
        "7" "Beta2" 100 none none).2.data.leagues "100_7" =
      some { name := "Beta2", league_id := 100, owner_id := "7",
             swid := none, espn_s2 := none, year := 2024 }) ∧
    ((alget (register_league connOkEcho 2024
        (register_league connOkEcho 2024 emptyState "7" "Alpha" 100
          none none).2
        "7" "Beta2" 100 none none).2.data.users "7").map
          (fun e => e.leagues.count "100_7") = some 1) := by
  have hwf : dataWF emptyState.data := by
    constructor
    · simp [keysNodup, emptyState]
    · intro uid e h
      simp [alget, emptyState] at h
  exact register_idempotent_composite_key connOkEcho connOkEcho 2024
    emptyState "7" "Alpha" "Beta2" 100 none none none none
    { teams := [1], apiName := none, league_id := 100, year := 2024 }
    { teams := [1], apiName := none, league_id := 100, year := 2024 }
    hwf rfl (by decide) rfl (by decide)

/-! # Claim C8 — exact name matches always rank ahead of substring matches -/

theorem mem_of_getElemQ {γ : Type} (l : List γ) (n : Nat) (a : γ)
    (h : l[n]? = some a) : a ∈ l := by
  obtain ⟨hlt, rfl⟩ := List.getElem?_eq_some_iff.mp h
  exact List.getElem_mem hlt

theorem append_ranked {γ : Type} (E Pt : List γ) (Q : γ → Prop)
    (hEQ : ∀ x ∈ E, Q x) (hPQ : ∀ x ∈ Pt, ¬ Q x)
    (i j : Nat) (x y : γ)
    (hx : (E ++ Pt)[i]? = some x) (hy : (E ++ Pt)[j]? = some y)
    (hQx : Q x) (hQy : ¬ Q y) : i < j := by
  have hiE : i < E.length := by
    by_contra hge
    push_neg at hge
    rw [List.getElem?_append_right hge] at hx
    exact absurd hQx (hPQ x (mem_of_getElemQ _ _ _ hx))
  have hjE : E.length ≤ j := by
    by_contra hlt
    push_neg at hlt
    rw [List.getElem?_append_left hlt] at hy
    exact hQy (hEQ y (mem_of_getElemQ _ _ _ hy))
  omega

theorem findFold_decomp (s : String) :
    ∀ (l : List (String × LeagueInfo)) (R P : List LeagueListing),
      l.foldl (findStep s) (R ++ P) =
        (((l.filter (exactP s)).map listingOf).reverse ++ R) ++
          (P ++ (l.filter (subP s)).map listingOf) := by
  intro l
  induction l with
  | nil => intro R P; simp
  | cons p t ih =>
    intro R P
    by_cases hE : s = normName p.2.name
    · have hstep : findStep s (R ++ P) p = (listingOf p :: R) ++ P := by
        simp [findStep, hE]
      have hfE : (p :: t).filter (exactP s) = p :: t.filter (exactP s) := by
        simp [List.filter_cons, exactP, hE]
      have hfS : (p :: t).filter (subP s) = t.filter (subP s) := by
        simp [List.filter_cons, subP, hE]
      rw [List.foldl_cons, hstep, ih (listingOf p :: R) P, hfE, hfS]
      simp [List.append_assoc]
    · by_cases hS : (strHasSub (normName p.2.name) s ||
          strHasSub s (normName p.2.name)) = true
      · have hstep : findStep s (R ++ P) p = R ++ (P ++ [listingOf p]) := by
          simp [findStep, hE, hS]
        have hfE : (p :: t).filter (exactP s) = t.filter (exactP s) := by
          simp [List.filter_cons, exactP, hE]
        have hfS : (p :: t).filter (subP s) = p :: t.filter (subP s) := by
          simp [List.filter_cons, subP, hE, hS]
        rw [List.foldl_cons, hstep, ih R (P ++ [listingOf p]), hfE, hfS]
        simp [List.append_assoc]
      · have hstep : findStep s (R ++ P) p = R ++ P := by
          simp [findStep, hE, hS]
        have hfE : (p :: t).filter (exactP s) = t.filter (exactP s) := by
          simp [List.filter_cons, exactP, hE]
        have hfS : (p :: t).filter (subP s) = t.filter (subP s) := by
          simp [List.filter_cons, subP, hE, hS]
        rw [List.foldl_cons, hstep, ih R P, hfE, hfS]

/-- C8: `find_leagues_by_name` returns the exact (lowercased, stripped)
name matches followed by all substring matches — so every exact match is
ranked ahead of every substring match regardless of registration order —
with the substring matches kept in registration order (the exact matches
end up in reverse registration order because each is inserted at index
0). -/
theorem find_by_name_ranking (d : RegistryData) (pat : String) :
    (find_leagues_by_name d pat =
      ((d.leagues.filter (exactP (normName pat))).map listingOf).reverse ++
        (d.leagues.filter (subP (normName pat))).map listingOf) ∧
    (∀ (i j : Nat) (x y : LeagueListing),
      (find_leagues_by_name d pat)[i]? = some x →
      (find_leagues_by_name d pat)[j]? = some y →
      normName x.name = normName pat →
      normName y.name ≠ normName pat →
      i < j) := by
  have hdec : find_leagues_by_name d pat =
      ((d.leagues.filter (exactP (normName pat))).map listingOf).reverse ++
        (d.leagues.filter (subP (normName pat))).map listingOf := by
    unfold find_leagues_by_name
    have h := findFold_decomp (normName pat) d.leagues [] []
    simpa using h
  refine ⟨hdec, ?_⟩
  intro i j x y hx hy hQx hQy
  rw [hdec] at hx hy
  refine append_ranked _ _ (fun z => normName z.name = normName pat)
    ?_ ?_ i j x y hx hy hQx hQy
  · intro z hz
    rw [List.mem_reverse] at hz
    obtain ⟨p, hp, rfl⟩ := List.mem_map.mp hz
    have hpe := List.of_mem_filter hp
    have : normName pat = normName p.2.name := by
      simpa [exactP] using hpe
    simpa [listingOf] using this.symm
  · intro z hz
    obtain ⟨p, hp, rfl⟩ := List.mem_map.mp hz
    have hps := List.of_mem_filter hp
    simp only [subP, Bool.and_eq_true, Bool.not_eq_true',
      decide_eq_false_iff_not] at hps
    intro hzn
    apply hps.1
    simpa [listingOf] using hzn.symm

/-- C8 witness: with "beta x" registered before "Beta", searching "beta"
ranks the exact match "Beta" (index 0) ahead of the substring match
"beta x" (index 1). -/
theorem find_by_name_ranking_w :
    find_leagues_by_name searchFixture "beta" =
      [{ key := "k2", name := "Beta", league_id := 2, owner_id := "u",
         year := 2024 },
       { key := "k1", name := "beta x", league_id := 1, owner_id := "u",
         year := 2024 }] ∧
    (0 : Nat) < 1 := by
  constructor
  · decide
  · exact (find_by_name_ranking searchFixture "beta").2 0 1
      { key := "k2", name := "Beta", league_id := 2, owner_id := "u",
        year := 2024 }
      { key := "k1", name := "beta x", league_id := 1, owner_id := "u",
        year := 2024 }
      (by decide) (by decide) (by decide) (by decide)

/-! # Claim C4 — cache freshness and cross-league contents -/

/-- C4 counterexample: user "7" owns leagues 100 and 200 and has default
"200_7" (league 200); one background pass over an empty cache stores
league 100's handle under the key "league_7_default" (the first iterated
league owned by "7"), and a foreground read of the user's default league
then returns league 100's data — a cache key holding data for a league
other than the one it denotes. -/
theorem cache_cross_league_cx :
    ((alget regSt3.data.users "7").map UserEntry.default_league =
      some (some "200_7")) ∧
    ((alget regSt3.data.leagues "200_7").map LeagueInfo.league_id =
      some 200) ∧
    ((refresh_common_data connOkEcho 0 regSt3.data emptyConnCache).2 =
      ["100_7"]) ∧
    ((get_league connOkEcho 0 regSt3.data 999 2024 none none
        (refresh_common_data connOkEcho 0 regSt3.data emptyConnCache).1
        (some "7") none).1 =
      .ok { teams := [1], apiName := none, league_id := 100,
            year := 2024 }) := by
  refine ⟨by decide, by decide, by decide, by rfl⟩

/-- C4 (amended): a read through the cache never returns an entry
strictly older than the TTL (the no-stale-beyond-TTL half of the claim
holds), but a cache key can end up holding data for a league other than
the one it denotes: the background pass writes, under
"league_{owner}_default", the first iterated league owned by that user
even when the user's default is a different league, and a foreground
default read then serves that other league's data. -/
theorem cache_freshness_amended :
    (∀ (c : ESPNCache ConnHandle) (key : String) (now : Int)
        (v : ConnHandle),
      (c.get key now).1 = some v →
      ∃ e : CacheEntry ConnHandle,
        alget c.cache key = some e ∧ e.data = v ∧
          now - e.timestamp ≤ c.ttl) ∧
    (((alget regSt3.data.users "7").map UserEntry.default_league =
        some (some "200_7")) ∧
      ((alget regSt3.data.leagues "200_7").map LeagueInfo.league_id =
        some 200) ∧
      ((get_league connOkEcho 0 regSt3.data 999 2024 none none
          (refresh_common_data connOkEcho 0 regSt3.data emptyConnCache).1
          (some "7") none).1 =
        .ok { teams := [1], apiName := none, league_id := 100,
              year := 2024 })) := by
  refine ⟨?_, by decide, by decide, by rfl⟩
  intro c key now v h
  exact get_fresh c key now v h

/-- C4 witness: the freshness half applied to a one-entry cache read at
the insertion time. -/
theorem cache_freshness_amended_w :
    ∃ e : CacheEntry ConnHandle,
      alget cacheFreshA.cache "league_u1_default" = some e ∧
        e.data = handleA ∧ (0 : Int) - e.timestamp ≤ cacheFreshA.ttl := by
  exact cache_freshness_amended.1 cacheFreshA "league_u1_default" 0 handleA
    (by rfl)
